import Mathlib

/-!
Verification of the SE050 driver (T=1 over I²C) against its specification.

The definitions below are a shallow embedding of the Rust sources:
  * `src/src/types.rs`  — TLV and APDU codec, T=1 protocol control bytes;
  * `src/src/se050.rs`  — the operation facade (`enable`, `generate_*_key`, ...).
Machine integers (`u8`, `u16`, `usize`) are modelled as `Nat`; every place the
source truncates with an `as u8` / `as u16` cast carries an explicit `% 256` /
`% 65536`.  Fallible flows (`heapless` capacity overruns, `Result`) are
modelled with `Option` / `Except`.  Effectful operations of the facade are
modelled as pure functions of the transport's responses.

The files `types_convs.rs`, `se050_convs.rs` and `t1.rs` are referenced from
`lib.rs` / `include!` but are not part of the source tree; the few items
needed from them (enum byte conversions, `ObjectId`, the CRC engine) are
modelled from the specification and marked as such.
-/

/-! ## Constants (src/src/types.rs lines 4-11) -/

/-- SE050 T1 mandates a single-byte LEN field, so IFS is strictly limited. -/
def MAX_IFSC : Nat := 255

/-- T1 frame is NAD+PCB+LEN, IFS (up to IFSC), CRC16 (2). -/
def MAX_T1_FRAME_SIZE : Nat := 3 + MAX_IFSC + 2

/-- Fixed capacity of the TLV list in a command APDU. -/
def MAX_TLVS : Nat := 8

/-! ## Simple TLV (src/src/types.rs lines 66-94) -/

/-- Embedding of `SimpleTlv`: one-byte tag, encoded length header, payload.
In the source the header is a `heapless::Vec<u8, 3>` (capacity three bytes). -/
structure SimpleTlv where
  tag : Nat
  header : List Nat
  data : List Nat
deriving DecidableEq, Repr

instance : Inhabited SimpleTlv := ⟨⟨0, [], []⟩⟩

/-- Embedding of `heapless::Vec::<u8, 3>::from_slice`: returns `none` (an
`Err` that the source unwraps, aborting) when the slice exceeds capacity 3. -/
def fromSliceCap3 (xs : List Nat) : Option (List Nat) :=
  if xs.length ≤ 3 then some xs else none

/-- Embedding of `SimpleTlv::new` (types.rs lines 74-81).  The header is
`[tag, len]` for `len < 128` and `[tag, 0x82, len >> 8, len]` otherwise, but
it is stored in a capacity-3 `heapless::Vec`, so building the 4-byte long
form fails; `none` models the `.unwrap()` abort on that `Err`. -/
def SimpleTlv.new (tag : Nat) (data : List Nat) : Option SimpleTlv :=
  let hdr :=
    if data.length < 128 then
      fromSliceCap3 [tag, data.length % 256]
    else
      fromSliceCap3 [tag, 0x82, (data.length >>> 8) % 256, data.length % 256]
  hdr.map fun header => ⟨tag, header, data⟩

/-- Embedding of `SimpleTlv::total_len`. -/
def SimpleTlv.total_len (t : SimpleTlv) : Nat :=
  t.header.length + t.data.length

/-! ## APDU class and instruction bytes (types.rs lines 31-62) -/

/-- Embedding of `ApduClass` with its `repr(u8)` discriminants. -/
inductive ApduClass
  | StandardPlain
  | ProprietaryPlain
  | ProprietarySecure
deriving DecidableEq, Repr

/-- Byte value of an `ApduClass`; the `Into<u8>` impl lives in the included
file `types_convs.rs` (absent from the tree) and is modelled as the
`repr(u8)` discriminants declared in types.rs lines 34-38. -/
def ApduClass.toByte : ApduClass → Nat
  | .StandardPlain => 0x00
  | .ProprietaryPlain => 0x80
  | .ProprietarySecure => 0x84

/-! ## Command APDU (types.rs lines 121-216) -/

/-- Embedding of `CApdu`.  `tlvs` is a `heapless::Vec<SimpleTlv, MAX_TLVS>`
in the source; `payload_len` is the running sum maintained by `push`. -/
structure CApdu where
  cla : ApduClass
  ins : Nat
  p1 : Nat
  p2 : Nat
  tlvs : List SimpleTlv
  payload_len : Nat
  le : Option Nat
deriving DecidableEq, Repr

/-- Embedding of `CApdu::new` (types.rs lines 196-206). -/
def CApdu.new (cla : ApduClass) (ins p1 p2 : Nat) (le : Option Nat) : CApdu :=
  ⟨cla, ins, p1, p2, [], 0, le⟩

/-- Embedding of `CApdu::push` (types.rs lines 208-211).  The source calls
`heapless::Vec::push(tlv).unwrap()`; the push returns `Err` when the vector
already holds `MAX_TLVS` elements and the unwrap aborts, modelled by `none`. -/
def CApdu.push (c : CApdu) (tlv : SimpleTlv) : Option CApdu :=
  if c.tlvs.length < MAX_TLVS then
    some { c with payload_len := c.payload_len + tlv.total_len,
                  tlvs := c.tlvs ++ [tlv] }
  else none

/-! ## Command APDU byte iterator (types.rs lines 131-193) -/

/-- Embedding of the `is_extended` choice in `CApduByteIterator::new`
(types.rs line 142): extended iff `payload_len > 255` or the `le` value,
when present, exceeds 255. -/
def CApdu.isExtended (c : CApdu) : Bool :=
  c.payload_len > 255 || (match c.le with
    | some le => le > 255
    | none => false)

/-- The `capdu_header` built by `CApduByteIterator::new` (types.rs lines
143-151): class, instruction, P1, P2, then the Lc field — absent when
`payload_len = 0`, one byte in short form, `[0x00, hi, lo]` in extended
form (`as u8` casts carry the `% 256`). -/
def CApdu.capduHeader (c : CApdu) : List Nat :=
  [c.cla.toByte, c.ins, c.p1, c.p2] ++
    (if c.payload_len > 0 then
      (if c.isExtended then
        [0x00, (c.payload_len >>> 8) % 256, c.payload_len % 256]
      else
        [c.payload_len % 256])
    else [])

/-- The `capdu_trailer` built by `CApduByteIterator::new` (types.rs lines
152-158): the Le field — absent when `le` is unset, one byte in short form,
`[0x00, hi, lo]` in extended form. -/
def CApdu.capduTrailer (c : CApdu) : List Nat :=
  match c.le with
  | some le =>
    if c.isExtended then [0x00, (le >>> 8) % 256, le % 256] else [le % 256]
  | none => []

/-- Embedding of `CApduByteIterator::current_slice` (types.rs lines 163-171):
section 0 is the header, odd sections `≤ 2·len` are TLV headers, even ones
TLV data, section `2·MAX_TLVS+1` the trailer.  The source indexing
`tlvs[i>>1]` is in range whenever `tlvs.len() ≤ MAX_TLVS`; `getD` supplies
the (unreachable) default. -/
def CApdu.currentSlice (c : CApdu) (sec : Nat) : Option (List Nat) :=
  if sec = 0 then some c.capduHeader
  else if sec ≤ 2 * c.tlvs.length ∧ sec % 2 = 1 then
    some (c.tlvs.getD (sec >>> 1) default).header
  else if sec ≤ 2 * c.tlvs.length then
    some (c.tlvs.getD ((sec - 1) >>> 1) default).data
  else if sec = 2 * MAX_TLVS + 1 then some c.capduTrailer
  else none

/-- Whether the slice of section `sec` still has a byte at offset `off`
(the loop guard `self.off < slice.len()` in `next`, types.rs line 185). -/
def CApdu.sliceHasByte (c : CApdu) (sec off : Nat) : Bool :=
  match c.currentSlice sec with
  | some s => off < s.length
  | none => false

/-- The skip loop at the end of `Iterator::next` (types.rs lines 183-190):
advance past exhausted or absent slices; stop on a slice with a byte left,
or right after the section counter exceeds `2*MAX_TLVS+1`.  The loop runs at
most `2*MAX_TLVS + 2 - sec` times (the section counter only increases and
the loop breaks beyond `2*MAX_TLVS+1`), which the structural `gas` argument
makes explicit. -/
def CApdu.advanceGo (c : CApdu) : Nat → Nat → Nat → Nat × Nat
  | 0, sec, off => (sec, off)
  | gas + 1, sec, off =>
    if c.sliceHasByte sec off then (sec, off)
    else if 2 * MAX_TLVS + 1 < sec + 1 then (sec + 1, 0)
    else c.advanceGo gas (sec + 1) 0

/-- The skip loop of `Iterator::next`, entered at section `sec`, offset
`off`. -/
def CApdu.advance (c : CApdu) (sec off : Nat) : Nat × Nat :=
  c.advanceGo (2 * MAX_TLVS + 2 - sec) sec off

/-- Iterator cursor: `section` and `off` fields of `CApduByteIterator`. -/
structure IterState where
  sec : Nat
  off : Nat
deriving DecidableEq, Repr

/-- Embedding of `Iterator::next` for `CApduByteIterator` (types.rs lines
177-192): emit the byte at the cursor and advance.  The source indexes
`slice.unwrap()[self.off]`; at every reachable state `off` is in bounds
(established by `advance`), so `getD _ 0` agrees with it. -/
def CApdu.nextIter (c : CApdu) (st : IterState) : Option (Nat × IterState) :=
  match c.currentSlice st.sec with
  | none => none
  | some slice =>
    let ret := slice.getD st.off 0
    let p := c.advance st.sec (st.off + 1)
    some (ret, ⟨p.1, p.2⟩)

/-- Driving the iterator to exhaustion (the `collect()` of the test); `fuel`
only bounds the number of steps and any value at least the byte count of the
APDU is enough. -/
def CApdu.collectIter (c : CApdu) : Nat → IterState → List Nat
  | 0, _ => []
  | fuel + 1, st =>
    match c.nextIter st with
    | none => []
    | some (b, st') => b :: c.collectIter fuel st'

/-- The byte stream of `CApdu::byte_iter` (types.rs lines 213-215), from the
initial cursor `{section: 0, off: 0}`.  The fuel is a safe overestimate of
the total byte count. -/
def CApdu.byteIter (c : CApdu) : List Nat :=
  c.collectIter (MAX_T1_FRAME_SIZE + c.payload_len + 2 * MAX_TLVS + 2) ⟨0, 0⟩

/-! ## T=1 protocol control byte (types.rs lines 220-278) -/

def T1_S_REQUEST_CODE : Nat := 0b11000000
def T1_S_RESPONSE_CODE : Nat := 0b11100000
def T1_R_CODE_MASK : Nat := 0b11101100
def T1_R_CODE : Nat := 0b10000000

/-- Embedding of `Iso7816Error` (types.rs lines 27-29). -/
inductive Iso7816Error
  | ValueError
deriving DecidableEq, Repr

/-- Embedding of `T1SCode` (types.rs lines 268-278). -/
inductive T1SCode
  | Resync
  | IFS
  | Abort
  | WTX
  | EndApduSession
  | ChipReset
  | GetATR
  | InterfaceSoftReset
deriving DecidableEq, Repr

/-- Byte value of a `T1SCode`: the enum discriminants declared in types.rs
lines 268-278 (the `Into<u8>` impl lives in the absent `types_convs.rs` and
is modelled as those discriminants). -/
def T1SCode.toByte : T1SCode → Nat
  | .Resync => 0
  | .IFS => 1
  | .Abort => 2
  | .WTX => 3
  | .EndApduSession => 5
  | .ChipReset => 6
  | .GetATR => 7
  | .InterfaceSoftReset => 15

/-- Modelled from the spec: `TryFrom<u8> for T1SCode` lives in the absent
`types_convs.rs`; it is the partial inverse of the discriminants declared in
types.rs (the spec's S-code enumeration), rejecting every other byte. -/
def T1SCode.fromByte : Nat → Except Iso7816Error T1SCode
  | 0 => .ok .Resync
  | 1 => .ok .IFS
  | 2 => .ok .Abort
  | 3 => .ok .WTX
  | 5 => .ok .EndApduSession
  | 6 => .ok .ChipReset
  | 7 => .ok .GetATR
  | 15 => .ok .InterfaceSoftReset
  | _ => .error .ValueError

/-- Embedding of `T1PCB` (types.rs lines 233-238): I-block (sequence bit,
more bit), S-block (code, response flag), R-block (sequence bit, error). -/
inductive T1PCB
  | I (seq : Nat) (multi : Bool)
  | S (code : T1SCode) (response : Bool)
  | R (seq : Nat) (err : Nat)
deriving DecidableEq, Repr

/-- Embedding of `TryFrom<u8> for T1PCB` (types.rs lines 240-255).
`!T1_S_RESPONSE_CODE` on `u8` is `0x1F`. -/
def T1PCB.fromByte (val : Nat) : Except Iso7816Error T1PCB :=
  if val &&& T1_R_CODE_MASK = T1_R_CODE then
    .ok (T1PCB.R ((val &&& 0x10) >>> 4) (val &&& 0x3))
  else if val &&& T1_S_REQUEST_CODE = T1_S_REQUEST_CODE then
    match T1SCode.fromByte (val &&& 0x1F) with
    | .ok s => .ok (T1PCB.S s ((val &&& 0x20) != 0))
    | .error e => .error e
  else if val &&& 0b10011111 = 0 then
    .ok (T1PCB.I ((val &&& 0x40) >>> 6) ((val &&& 0x20) != 0))
  else .error .ValueError

/-- Embedding of `Into<u8> for T1PCB` (types.rs lines 257-266).  Note the
R-block arm shifts the sequence bit by 5, exactly as the source does. -/
def T1PCB.toByte : T1PCB → Nat
  | .I seq multi => (seq <<< 6) ||| (if multi then 0x20 else 0)
  | .R seq err => T1_R_CODE ||| (seq <<< 5) ||| err
  | .S code false => T1_S_REQUEST_CODE ||| code.toByte
  | .S code true => T1_S_RESPONSE_CODE ||| code.toByte

/-- Embedding of `T1Error` (types.rs lines 280-289). -/
inductive T1Error
  | TransmitError
  | ReceiveError
  | BufferOverrunError (n : Nat)
  | ChecksumError
  | ProtocolError
  | RCodeReceived (b : Nat)
  | TlvParseError
deriving DecidableEq, Repr

/-! ## Answer to Reset (types.rs lines 308-339) -/

/-- Embedding of `DataLinkLayerParameters`. -/
structure DataLinkLayerParameters where
  bwt_ms : Nat
  ifsc : Nat
deriving DecidableEq, Repr

/-- Embedding of `I2CParameters`. -/
structure I2CParameters where
  mcf : Nat
  configuration : Nat
  mpot_ms : Nat
  rfu : List Nat
  segt_us : Nat
  wut_us : Nat
deriving DecidableEq, Repr

/-- Embedding of `PhysicalLayerParameters`. -/
inductive PhysicalLayerParameters
  | I2C (params : I2CParameters)
deriving DecidableEq, Repr

/-- Embedding of `AnswerToReset`. -/
structure AnswerToReset where
  protocol_version : Nat
  vendor_id : List Nat
  dllp : DataLinkLayerParameters
  plp : PhysicalLayerParameters
  historical_bytes : List Nat
deriving DecidableEq, Repr

/-! ## CRC engine -/

/-- One reflected shift round of CRC-16/X-25 (reversed polynomial 0x8408),
iterated eight times per input byte. -/
def crcShift : Nat → Nat → Nat
  | crc, 0 => crc
  | crc, n + 1 =>
    crcShift (if crc % 2 = 1 then (crc >>> 1) ^^^ 0x8408 else crc >>> 1) n

/-- Modelled from the spec: the CRC engine is the external `crc16` crate
(`Se050CRC = crc16::State<crc16::X_25>`, types.rs line 343); CRC-16/X-25
with polynomial 0x1021, init 0xFFFF, reflected input and output, xor-out
0xFFFF, over a byte list. -/
def Se050CRC.calculate (bytes : List Nat) : Nat :=
  (bytes.foldl (fun crc b => crcShift (crc ^^^ (b % 256)) 8) 0xFFFF) ^^^ 0xFFFF

/-! ## Operation facade (src/src/se050.rs) -/

/-- Embedding of `Se050Error` (se050.rs lines 5-9). -/
inductive Se050Error
  | UnknownError
  | T1Err (e : T1Error)
deriving DecidableEq, Repr

/-- Modelled from the spec: `ObjectId` is re-exported from `types` but
defined in the absent `types_convs.rs`; per the spec's data model it is an
opaque 4-byte handle (`ObjectId(pub [u8; 4])`). -/
structure ObjectId where
  bytes : List Nat
deriving DecidableEq, Repr

/-- Embedding of `Se050AppInfo` (se050.rs lines 335-339). -/
structure Se050AppInfo where
  applet_version : Nat
  features : Nat
  securebox_version : Nat
deriving DecidableEq, Repr

/-- Embedding of `byteorder::BE::read_uint` / `read_u16`: big-endian value
of a byte list. -/
def beReadUint (bytes : List Nat) : Nat :=
  bytes.foldl (fun acc b => acc * 256 + b) 0

/-- Embedding of `RawCApdu` (the header fields plus a raw data slice). -/
structure RawCApdu where
  cla : ApduClass
  ins : Nat
  p1 : Nat
  p2 : Nat
  data : List Nat
  le : Option Nat
deriving DecidableEq, Repr

/-- The 16-byte SE050 JCOP applet AID (`app_id`, se050.rs lines 379-382). -/
def appletAid : List Nat :=
  [0xA0, 0x00, 0x00, 0x03, 0x96, 0x54, 0x53, 0x00,
   0x00, 0x00, 0x01, 0x03, 0x00, 0x00, 0x00, 0x00]

/-- The GP SELECT FILE APDU built by `enable` (se050.rs lines 383-390):
`StandardPlain` class, `SelectFile` instruction `0xA4`, P1 `0x04`, P2
`0x00`, the applet AID as data, `Le = Some(0)`. -/
def appSelectApdu : RawCApdu :=
  ⟨.StandardPlain, 0xA4, 0x04, 0x00, appletAid, some 0⟩

/-- The transport responses `enable` consumes, one per `t1_proto` call:
the soft-reset result, the `send_apdu_raw` result and the
`receive_apdu_raw` result (response data bytes and status word). -/
structure EnableEnv where
  reset : Except T1Error AnswerToReset
  send : Except T1Error Unit
  recv : Except T1Error (List Nat × Nat)

/-- Embedding of `Se050::enable` (se050.rs lines 368-413) as a pure function
of the transport responses.  The first component records the command APDU
sent to the card (`none` when the soft reset already failed); the second is
the returned result, with the parsed `Se050AppInfo` made explicit.  Any
transport error maps to `UnknownError`; a status word other than `0x9000`
or a data field whose length is not 7 is rejected; on success the data is
read as 3-byte big-endian applet version, 2-byte features, 2-byte securebox
version. -/
def Se050.enable (env : EnableEnv) :
    Option RawCApdu × Except Se050Error Se050AppInfo :=
  match env.reset with
  | .error _ => (none, .error .UnknownError)
  | .ok _ =>
    match env.send with
    | .error _ => (some appSelectApdu, .error .UnknownError)
    | .ok _ =>
      match env.recv with
      | .error _ => (some appSelectApdu, .error .UnknownError)
      | .ok (adata, asw) =>
        if asw ≠ 0x9000 ∨ adata.length ≠ 7 then
          (some appSelectApdu, .error .UnknownError)
        else
          (some appSelectApdu,
           .ok ⟨beReadUint (adata.take 3),
                beReadUint ((adata.drop 3).take 2),
                beReadUint ((adata.drop 5).take 2)⟩)

/-- The transport responses a `generate_*_key` wrapper consumes: the
`send_apdu` result and the `receive_apdu` result (parsed TLV list and
status word). -/
structure GenEnv where
  send : Except T1Error Unit
  recv : Except T1Error (List SimpleTlv × Nat)

/-- The command APDU built by every `generate_*_key` wrapper (e.g. se050.rs
lines 502-513): TLV1 (tag `0x41`) carries the hardcoded object id, TLV2
(tag `0x42`) the one-byte curve id; instruction `Write | TRANSIENT`
(`0x01 | 0x80`), P1 `EC | KeyPair` (`0x01 | 0x60`), P2 `Default`, no Le.
The enum-to-byte conversions and the `BitOr` impls live in the absent
`se050_convs.rs` and are modelled as bitwise or of the declared
discriminants. -/
def genKeyCapdu (curve : Nat) : Option CApdu :=
  (SimpleTlv.new 0x41 [0xAE, 0x51, 0xAE, 0x51]).bind fun tlv1 =>
  (SimpleTlv.new 0x42 [curve]).bind fun tlv2 =>
  ((CApdu.new .ProprietaryPlain (0x01 ||| 0x80) (0x01 ||| 0x60) 0x00 none).push
    tlv1).bind fun c =>
  c.push tlv2

/-- Embedding of the shared body of the 19 `generate_*_key` wrappers
(se050.rs lines 431-1089, all textually identical up to the curve byte) as
a pure function of the transport responses: propagate transport errors as
`UnknownError`, reject a status word other than `0x9000`, and otherwise
return `Ok(ObjectId([0xae, 0x51, 0xae, 0x51]))` — the compile-time constant,
ignoring the response TLVs entirely. -/
def generate_ec_key (curve : Nat) (env : GenEnv) : Except Se050Error ObjectId :=
  match env.send with
  | .error _ => .error .UnknownError
  | .ok _ =>
    match env.recv with
    | .error _ => .error .UnknownError
    | .ok (_tlvs, sw) =>
      if sw ≠ 0x9000 then .error .UnknownError
      else .ok ⟨[0xAE, 0x51, 0xAE, 0x51]⟩

/-- `generate_p192_key` (se050.rs lines 431-459): curve byte `0x01`. -/
def generate_p192_key : GenEnv → Except Se050Error ObjectId :=
  generate_ec_key 0x01

/-- `generate_p256_key` (se050.rs lines 502-530): curve byte `0x03`. -/
def generate_p256_key : GenEnv → Except Se050Error ObjectId :=
  generate_ec_key 0x03

/-- The curve bytes of all 19 `generate_*_key` wrappers, in source order
(P-192 … P-521, Brainpool, Secp*k1, TPM BN P256, Ed25519, X25519). -/
def generateKeyCurveBytes : List Nat :=
  [0x01, 0x02, 0x03, 0x04, 0x05, 0x06, 0x07, 0x08, 0x09, 0x0A, 0x0B, 0x0C,
   0x0D, 0x0E, 0x0F, 0x10, 0x11, 0x40, 0x41]

/-! ## Accounting helpers for the byte iterator

These are proof-side measures (not part of the source): the byte count left
in a section and from a cursor position onward.  They drive the bound on the
iterator's total output. -/

/-- Byte count of the slice at section `sec` (0 when the section is absent). -/
def CApdu.sliceLen (c : CApdu) (sec : Nat) : Nat :=
  ((c.currentSlice sec).getD []).length

/-- Sum of `sliceLen` over `n` consecutive sections starting at `sec`. -/
def CApdu.sumSliceLen (c : CApdu) : Nat → Nat → Nat
  | _, 0 => 0
  | sec, n + 1 => c.sliceLen sec + c.sumSliceLen (sec + 1) n

/-- Bytes still to be emitted from cursor `(sec, off)`: the rest of the
current slice plus all full sections up to and including the trailer. -/
def CApdu.remaining (c : CApdu) (sec off : Nat) : Nat :=
  (c.sliceLen sec - off) + c.sumSliceLen (sec + 1) (2 * MAX_TLVS + 1 - sec)

/-! ## Concrete fixtures -/

/-- The TLV of the in-repo test `test_capdu2` (tests/mod.rs lines 8-19):
tag `0x41`, twelve data bytes. -/
def tlvTest : SimpleTlv :=
  (SimpleTlv.new 0x41 [0, 1, 2, 3, 0, 1, 2, 3, 0, 1, 2, 3]).getD default

/-- The command APDU of `test_capdu2`: class `ProprietaryPlain` (0x80),
instruction 0x20, P1 0x40, P2 0x60, the TLV above, `Le = Some(0)`. -/
def cApduTest : CApdu :=
  ((CApdu.new .ProprietaryPlain 0x20 0x40 0x60 (some 0)).push tlvTest).getD
    (CApdu.new .ProprietaryPlain 0x20 0x40 0x60 (some 0))

/-- An APDU whose `le` value forces the extended encoding. -/
def capduExtendedExample : CApdu :=
  CApdu.new .ProprietaryPlain 0x01 0x02 0x03 (some 0x1234)

/-- A concrete ATR, used to exercise `enable` on a successful reset. -/
def atrExample : AnswerToReset :=
  ⟨0, [0, 0, 0, 0, 0], ⟨1000, 254⟩, .I2C ⟨0, 0, 0, [0, 0, 0], 0, 0⟩, []⟩

/-- Transport responses for a fully successful `enable` run. -/
def enableEnvExample : EnableEnv :=
  ⟨.ok atrExample, .ok (), .ok ([1, 2, 3, 4, 5, 6, 7], 0x9000)⟩

-- Equality on `Except` values is decidable componentwise.
deriving instance DecidableEq for Except

/-! ## Lemmas about the byte iterator -/

lemma currentSlice_none_of_big (c : CApdu) (h8 : c.tlvs.length ≤ MAX_TLVS)
    {sec : Nat} (h : 2 * MAX_TLVS + 1 < sec) : c.currentSlice sec = none := by
  unfold CApdu.currentSlice
  unfold MAX_TLVS at h h8
  have h1 : ¬ sec = 0 := by omega
  have h2 : ¬ (sec ≤ 2 * c.tlvs.length ∧ sec % 2 = 1) := by omega
  have h3 : ¬ sec ≤ 2 * c.tlvs.length := by omega
  have h4 : ¬ sec = 2 * MAX_TLVS + 1 := by unfold MAX_TLVS; omega
  simp [h1, h2, h3, h4]

lemma remaining_of_big (c : CApdu) (h8 : c.tlvs.length ≤ MAX_TLVS)
    {sec : Nat} (off : Nat) (h : 2 * MAX_TLVS + 1 < sec) :
    c.remaining sec off = 0 := by
  unfold CApdu.remaining CApdu.sliceLen
  rw [currentSlice_none_of_big c h8 h]
  have : 2 * MAX_TLVS + 1 - sec = 0 := by omega
  rw [this]
  simp [CApdu.sumSliceLen]

lemma remaining_step (c : CApdu) {sec : Nat} (h : sec ≤ 2 * MAX_TLVS)
    (off : Nat) :
    c.remaining sec off = (c.sliceLen sec - off) + c.remaining (sec + 1) 0 := by
  unfold CApdu.remaining
  have e1 : 2 * MAX_TLVS + 1 - sec = (2 * MAX_TLVS + 1 - (sec + 1)) + 1 := by
    omega
  rw [e1]
  simp [CApdu.sumSliceLen]

lemma advanceGo_spec (c : CApdu) (h8 : c.tlvs.length ≤ MAX_TLVS) :
    ∀ gas sec off, 2 * MAX_TLVS + 2 ≤ gas + sec →
      ((c.sliceHasByte (c.advanceGo gas sec off).1 (c.advanceGo gas sec off).2
          = true
        ∨ c.currentSlice (c.advanceGo gas sec off).1 = none)
       ∧ c.remaining (c.advanceGo gas sec off).1 (c.advanceGo gas sec off).2
          ≤ c.remaining sec off) := by
  intro gas
  induction gas with
  | zero =>
    intro sec off hg
    refine ⟨Or.inr (currentSlice_none_of_big c h8 ?_), le_refl _⟩
    simpa [CApdu.advanceGo] using by omega
  | succ gas ih =>
    intro sec off hg
    by_cases hb : c.sliceHasByte sec off
    · simp [CApdu.advanceGo, hb]
    · by_cases hbig : 2 * MAX_TLVS + 1 < sec + 1
      · have hres : c.advanceGo (gas + 1) sec off = (sec + 1, 0) := by
          simp [CApdu.advanceGo, hb, hbig]
        rw [hres]
        refine ⟨Or.inr (currentSlice_none_of_big c h8 hbig), ?_⟩
        rw [remaining_of_big c h8 0 hbig]
        exact Nat.zero_le _
      · have hres : c.advanceGo (gas + 1) sec off = c.advanceGo gas (sec + 1) 0 := by
          simp [CApdu.advanceGo, hb, hbig]
        rw [hres]
        have hg2 : 2 * MAX_TLVS + 2 ≤ gas + (sec + 1) := by omega
        obtain ⟨hinv, hle⟩ := ih (sec + 1) 0 hg2
        refine ⟨hinv, le_trans hle ?_⟩
        rw [remaining_step c (by omega) off]
        exact Nat.le_add_left _ _

lemma nextIter_none (c : CApdu) (st : IterState)
    (h : c.currentSlice st.sec = none) : c.nextIter st = none := by
  simp [CApdu.nextIter, h]

lemma nextIter_some_spec (c : CApdu) (h8 : c.tlvs.length ≤ MAX_TLVS)
    (st : IterState) (hb : c.sliceHasByte st.sec st.off = true) :
    ∃ b st2, c.nextIter st = some (b, st2) ∧
      (c.sliceHasByte st2.sec st2.off = true
        ∨ c.currentSlice st2.sec = none) ∧
      c.remaining st2.sec st2.off + 1 ≤ c.remaining st.sec st.off := by
  unfold CApdu.sliceHasByte at hb
  rcases hs : c.currentSlice st.sec with _ | slice
  · rw [hs] at hb; simp at hb
  · rw [hs] at hb
    simp at hb
    refine ⟨slice.getD st.off 0,
      ⟨(c.advance st.sec (st.off + 1)).1, (c.advance st.sec (st.off + 1)).2⟩,
      by simp [CApdu.nextIter, hs], ?_, ?_⟩
    · exact (advanceGo_spec c h8 _ st.sec (st.off + 1) (by omega)).1
    · have hle := (advanceGo_spec c h8 (2 * MAX_TLVS + 2 - st.sec) st.sec
        (st.off + 1) (by omega)).2
      have hL : c.sliceLen st.sec = slice.length := by
        simp [CApdu.sliceLen, hs]
      have hrem : c.remaining st.sec (st.off + 1) + 1 ≤ c.remaining st.sec st.off := by
        unfold CApdu.remaining
        rw [hL]
        omega
      calc c.remaining (c.advance st.sec (st.off + 1)).1
              (c.advance st.sec (st.off + 1)).2 + 1
          ≤ c.remaining st.sec (st.off + 1) + 1 := by
            exact Nat.add_le_add_right hle 1
        _ ≤ c.remaining st.sec st.off := hrem

lemma collectIter_length_le (c : CApdu) (h8 : c.tlvs.length ≤ MAX_TLVS) :
    ∀ fuel (st : IterState),
      (c.sliceHasByte st.sec st.off = true ∨ c.currentSlice st.sec = none) →
      (c.collectIter fuel st).length ≤ c.remaining st.sec st.off := by
  intro fuel
  induction fuel with
  | zero => intro st _; simp [CApdu.collectIter]
  | succ fuel ih =>
    intro st hinv
    rcases hinv with hb | hnone
    · obtain ⟨b, st2, hnext, hinv2, hrem⟩ := nextIter_some_spec c h8 st hb
      rw [show c.collectIter (fuel + 1) st = b :: c.collectIter fuel st2 by
        simp [CApdu.collectIter, hnext]]
      have := ih st2 hinv2
      simp only [List.length_cons]
      omega
    · rw [show c.collectIter (fuel + 1) st = [] by
        simp [CApdu.collectIter, nextIter_none c st hnone]]
      simp

lemma sliceLen_trailer (c : CApdu) (h8 : c.tlvs.length ≤ MAX_TLVS) :
    c.sliceLen (2 * MAX_TLVS + 1) = c.capduTrailer.length := by
  unfold CApdu.sliceLen CApdu.currentSlice
  unfold MAX_TLVS at h8
  have h1 : ¬ (2 * MAX_TLVS + 1 = 0) := by unfold MAX_TLVS; omega
  have h2 : ¬ (2 * MAX_TLVS + 1 ≤ 2 * c.tlvs.length ∧ (2 * MAX_TLVS + 1) % 2 = 1) := by
    unfold MAX_TLVS; omega
  have h3 : ¬ 2 * MAX_TLVS + 1 ≤ 2 * c.tlvs.length := by unfold MAX_TLVS; omega
  simp [h1, h2, h3]

lemma sumSliceLen_tlvs (c : CApdu) (h8 : c.tlvs.length ≤ MAX_TLVS) :
    ∀ m k, k + m = MAX_TLVS →
      c.sumSliceLen (2 * k + 1) (2 * m + 1) =
        ((c.tlvs.drop k).map SimpleTlv.total_len).sum
          + c.sliceLen (2 * MAX_TLVS + 1) := by
  intro m
  induction m with
  | zero =>
    intro k hk
    have hk8 : k = MAX_TLVS := by omega
    subst hk8
    have hdrop : c.tlvs.drop MAX_TLVS = [] := List.drop_eq_nil_of_le h8
    simp [CApdu.sumSliceLen, hdrop]
  | succ m ih =>
    intro k hk
    have hstep : c.sumSliceLen (2 * k + 1) (2 * (m + 1) + 1) =
        c.sliceLen (2 * k + 1) + (c.sliceLen (2 * k + 2)
          + c.sumSliceLen (2 * (k + 1) + 1) (2 * m + 1)) := by
      have e : 2 * (m + 1) + 1 = (2 * m + 1) + 1 + 1 := by omega
      rw [e]
      have e2 : 2 * k + 1 + 1 = 2 * k + 2 := by omega
      have e3 : 2 * k + 2 + 1 = 2 * (k + 1) + 1 := by omega
      simp [CApdu.sumSliceLen, e2, e3]
    rw [hstep, ih (k + 1) (by omega)]
    by_cases hkl : k < c.tlvs.length
    · have hs1 : c.sliceLen (2 * k + 1) = (c.tlvs.getD k default).header.length := by
        unfold CApdu.sliceLen CApdu.currentSlice
        have h1 : ¬ (2 * k + 1 = 0) := by omega
        have h2 : 2 * k + 1 ≤ 2 * c.tlvs.length ∧ (2 * k + 1) % 2 = 1 :=
          ⟨by omega, by omega⟩
        have hidx : (2 * k + 1) >>> 1 = k := by
          rw [Nat.shiftRight_eq_div_pow]
          omega
        simp [h1, h2, hidx]
      have hs2 : c.sliceLen (2 * k + 2) = (c.tlvs.getD k default).data.length := by
        unfold CApdu.sliceLen CApdu.currentSlice
        have h1 : ¬ (2 * k + 2 = 0) := by omega
        have h2 : ¬ (2 * k + 2 ≤ 2 * c.tlvs.length ∧ (2 * k + 2) % 2 = 1) := by
          omega
        have h3 : 2 * k + 2 ≤ 2 * c.tlvs.length := by omega
        have hidx : (2 * k + 1) >>> 1 = k := by
          rw [Nat.shiftRight_eq_div_pow]
          omega
        simp [h1, h2, h3, hidx]
      have hdrop : c.tlvs.drop k = c.tlvs.get ⟨k, hkl⟩ :: c.tlvs.drop (k + 1) :=
        List.drop_eq_getElem_cons hkl
      have hgetD : c.tlvs.getD k default = c.tlvs.get ⟨k, hkl⟩ := by
        simp [List.getD_eq_getElem?_getD, List.getElem?_eq_getElem hkl]
      rw [hgetD] at hs1 hs2
      rw [hs1, hs2, hdrop]
      simp only [List.map_cons, List.sum_cons, SimpleTlv.total_len]
      omega
    · have hs1 : c.sliceLen (2 * k + 1) = 0 := by
        unfold CApdu.sliceLen CApdu.currentSlice
        unfold MAX_TLVS at hk
        have h1 : ¬ (2 * k + 1 = 0) := by omega
        have h2 : ¬ (2 * k + 1 ≤ 2 * c.tlvs.length ∧ (2 * k + 1) % 2 = 1) := by
          omega
        have h3 : ¬ 2 * k + 1 ≤ 2 * c.tlvs.length := by omega
        have h4 : ¬ (2 * k + 1 = 2 * MAX_TLVS + 1) := by unfold MAX_TLVS; omega
        simp [h1, h2, h3, h4]
      have hs2 : c.sliceLen (2 * k + 2) = 0 := by
        unfold CApdu.sliceLen CApdu.currentSlice
        unfold MAX_TLVS at hk
        have h1 : ¬ (2 * k + 2 = 0) := by omega
        have h2 : ¬ (2 * k + 2 ≤ 2 * c.tlvs.length ∧ (2 * k + 2) % 2 = 1) := by
          omega
        have h3 : ¬ 2 * k + 2 ≤ 2 * c.tlvs.length := by omega
        have h4 : ¬ (2 * k + 2 = 2 * MAX_TLVS + 1) := by unfold MAX_TLVS; omega
        simp [h1, h2, h3, h4]
      have hdrop1 : c.tlvs.drop k = [] := List.drop_eq_nil_of_le (by omega)
      have hdrop2 : c.tlvs.drop (k + 1) = [] := List.drop_eq_nil_of_le (by omega)
      rw [hs1, hs2, hdrop1, hdrop2]
      simp

lemma capduHeader_length_le (c : CApdu) : c.capduHeader.length ≤ 7 := by
  unfold CApdu.capduHeader
  split_ifs <;> simp

lemma capduTrailer_length_le (c : CApdu) : c.capduTrailer.length ≤ 3 := by
  unfold CApdu.capduTrailer
  rcases c.le with _ | le
  · simp
  · simp only []
    split_ifs <;> simp

lemma sliceHasByte_zero (c : CApdu) : c.sliceHasByte 0 0 = true := by
  unfold CApdu.sliceHasByte CApdu.currentSlice
  simp [CApdu.capduHeader]

/-- C6: for every command APDU holding at most `MAX_TLVS` TLVs, the byte
iterator emits at most `4 + 3 + Σ total_len(tlv) + 3` bytes: a 4-byte
header, at most 3 Lc bytes, the concatenated TLVs, at most 3 Le bytes. -/
theorem capdu_byte_iter_bound (c : CApdu) (h8 : c.tlvs.length ≤ MAX_TLVS) :
    c.byteIter.length ≤ 4 + 3 + (c.tlvs.map SimpleTlv.total_len).sum + 3 := by
  have hlen := collectIter_length_le c h8
    (MAX_T1_FRAME_SIZE + c.payload_len + 2 * MAX_TLVS + 2) ⟨0, 0⟩
    (Or.inl (sliceHasByte_zero c))
  have hrem : c.remaining 0 0 =
      c.capduHeader.length + ((c.tlvs.map SimpleTlv.total_len).sum
        + c.capduTrailer.length) := by
    unfold CApdu.remaining
    have e : 2 * MAX_TLVS + 1 - 0 = 2 * MAX_TLVS + 1 := by omega
    rw [e]
    have h0 : c.sliceLen 0 = c.capduHeader.length := by
      unfold CApdu.sliceLen CApdu.currentSlice
      simp
    have hsum := sumSliceLen_tlvs c h8 MAX_TLVS 0 (by omega)
    rw [show (0 : Nat) + 1 = 2 * 0 + 1 by omega]
    rw [hsum, h0, sliceLen_trailer c h8]
    simp
  have hlen2 : (c.collectIter
      (MAX_T1_FRAME_SIZE + c.payload_len + 2 * MAX_TLVS + 2) ⟨0, 0⟩).length
        ≤ c.remaining 0 0 := hlen
  rw [show c.byteIter = c.collectIter
    (MAX_T1_FRAME_SIZE + c.payload_len + 2 * MAX_TLVS + 2) ⟨0, 0⟩ from rfl]
  have hh := capduHeader_length_le c
  have ht := capduTrailer_length_le c
  omega

/-! ## Claim theorems -/

set_option maxRecDepth 2000 in
/-- C1: evaluation of `SimpleTlv::new` at the failing input.  A 128-byte
payload selects the long form, whose 4-byte header `[tag, 0x82, hi, lo]`
does not fit the capacity-3 `heapless::Vec` backing `header`: `from_slice`
returns `Err` and the source's `.unwrap()` aborts (`none` here), so no TLV
with a payload of 128 bytes or more can be built, contradicting the claimed
long-form round trip; payloads under 128 bytes get the 2-byte header. -/
theorem simple_tlv_long_form_aborts :
    SimpleTlv.new 0x41 (List.replicate 128 0) = none ∧
    SimpleTlv.new 0x41 (List.replicate 127 7) =
      some ⟨0x41, [0x41, 127], List.replicate 127 7⟩ :=
  ⟨by decide, by decide⟩

/-- C2 counterexample: an APDU with `Lc = 0 ≤ 255` and `Le = 256` — for
which the claim requires the short encoding (`Le ≤ 256`) — is encoded
extended: `is_extended` tests `le > 255`, not `le > 256`. -/
theorem capdu_short_form_choice_counterexample :
    (CApdu.new .ProprietaryPlain 0 0 0 (some 256)).payload_len ≤ 255 ∧
    (CApdu.new .ProprietaryPlain 0 0 0 (some 256)).isExtended = true :=
  ⟨by decide, by rfl⟩

/-- C2 (amended): the builder chooses the short encoding exactly when
`Lc ≤ 255` and `Le`, when set, is at most 255; otherwise the extended
encoding writes a leading `0x00` byte and a 2-byte big-endian length for
the Lc field (when `Lc > 0`) and for the Le field (when set). -/
theorem capdu_encoding_choice (c : CApdu) :
    (c.isExtended = false ↔
      c.payload_len ≤ 255 ∧ ∀ le, c.le = some le → le ≤ 255)
  ∧ (c.isExtended = true → 0 < c.payload_len →
      c.capduHeader = [c.cla.toByte, c.ins, c.p1, c.p2,
        0x00, (c.payload_len >>> 8) % 256, c.payload_len % 256])
  ∧ (c.isExtended = true → ∀ le, c.le = some le →
      c.capduTrailer = [0x00, (le >>> 8) % 256, le % 256]) := by
  refine ⟨?_, ?_, ?_⟩
  · rcases hle : c.le with _ | le
    · simp [CApdu.isExtended, hle]
    · simp [CApdu.isExtended, hle]
  · intro hext hpl
    simp [CApdu.capduHeader, hext, hpl]
  · intro hext le hle
    simp [CApdu.capduTrailer, hext, hle]

/-- Witness for C2: on a concrete APDU with `Le = 0x1234` the extended
trailer is `[0x00, 0x12, 0x34]`. -/
theorem capdu_encoding_choice_witness :
    capduExtendedExample.capduTrailer = [0x00, 0x12, 0x34] :=
  (capdu_encoding_choice capduExtendedExample).2.2 (by rfl) 0x1234 (by rfl)

/-- C3: evaluation at the failing input `R(1, 0)`.  The encoder places the
expected-sequence bit at bit 5 (`seq << 5`), yielding `0xA0`, which the
repo's own decoder rejects (`0xA0 & 0b1110_1100 ≠ 0x80`); the byte `0x90`
demanded by the claim (bit 4) is what the decoder maps back to `R(1, 0)`.
For `N = 0` encode and decode do agree (shown at `R(0, 2)`). -/
theorem r_block_seq_bit_mismatch :
    (T1PCB.R 1 0).toByte = 0xA0 ∧
    T1PCB.fromByte 0xA0 = .error .ValueError ∧
    T1PCB.fromByte 0x90 = .ok (T1PCB.R 1 0) ∧
    (T1PCB.R 0 2).toByte = 0x82 ∧
    T1PCB.fromByte 0x82 = .ok (T1PCB.R 0 2) :=
  ⟨by rfl, by rfl, by rfl, by rfl, by rfl⟩

/-- C4 counterexample: the byte stream of the spec's test APDU does not
have length 19. -/
theorem capdu_test_vector_length_not_19 :
    ¬ (cApduTest.byteIter.length = 19) := by
  have h : cApduTest.byteIter.length = 20 := by rfl
  omega

/-- C4 (amended): building the test APDU (class 0x80, ins 0x20, P1 0x40,
P2 0x60, one TLV with tag 0x41 and 12 data bytes, `Le = Some(0)`) and
collecting its byte iterator yields exactly
`80 20 40 60 0E 41 0C 00 01 02 03 00 01 02 03 00 01 02 03 00`, whose
length is 20 (as the in-repo test asserts), not 19. -/
theorem capdu_test_vector_bytes :
    cApduTest.byteIter = [0x80, 0x20, 0x40, 0x60, 0x0E, 0x41, 0x0C,
      0, 1, 2, 3, 0, 1, 2, 3, 0, 1, 2, 3, 0x00] ∧
    cApduTest.byteIter.length = 20 :=
  ⟨by rfl, by rfl⟩

/-- C5: the CRC used for T=1 blocks is CRC-16/X-25, and on
`[0x00, 0x30, 0x5F, 0x6F, 0xF2]` it returns `0x78A1` (the in-repo test
`test_crc16_ccitt`). -/
theorem crc16_x25_test_vector :
    Se050CRC.calculate [0x00, 0x30, 0x5F, 0x6F, 0xF2] = 0x78A1 := by decide

/-- Witness for C6: the concrete test APDU satisfies the bound
(20 ≤ 4 + 3 + 14 + 3). -/
theorem capdu_byte_iter_bound_witness :
    cApduTest.tlvs.length ≤ MAX_TLVS ∧
    cApduTest.byteIter.length ≤
      4 + 3 + (cApduTest.tlvs.map SimpleTlv.total_len).sum + 3 :=
  ⟨by decide, capdu_byte_iter_bound cApduTest (by decide)⟩

/-- C7: `CApdu::push` succeeds exactly when the APDU currently holds fewer
than `MAX_TLVS = 8` TLVs — pushing onto a full APDU aborts (`none`) — and a
successful push grows the TLV list by one, never beyond 8. -/
theorem capdu_push_capacity (c : CApdu) (t : SimpleTlv) :
    ((c.push t).isSome = true ↔ c.tlvs.length < MAX_TLVS) ∧
    (∀ c2, c.push t = some c2 →
      c2.tlvs.length = c.tlvs.length + 1 ∧ c2.tlvs.length ≤ MAX_TLVS) := by
  constructor
  · unfold CApdu.push
    split_ifs with h <;> simp [h]
  · intro c2 hc2
    unfold CApdu.push at hc2
    split_ifs at hc2 with h
    · simp only [Option.some.injEq] at hc2
      subst hc2
      refine ⟨by simp, ?_⟩
      simp only [List.length_append, List.length_cons, List.length_nil]
      unfold MAX_TLVS at h ⊢
      omega

/-- Witness for C7: pushing onto a freshly built (empty) APDU succeeds. -/
theorem capdu_push_capacity_witness :
    ((CApdu.new .ProprietaryPlain 0 0 0 none).push ⟨0, [], []⟩).isSome = true :=
  (capdu_push_capacity _ _).1.mpr (by decide)

/-- C8: `enable` soft-resets first and, only if that succeeded, sends the
GP SELECT FILE APDU (P1 0x04, P2 0x00, the 16-byte applet AID, `Le =
Some(0)`); it errors whenever the reset, send or receive fails, the status
word differs from `0x9000`, or the data is not exactly 7 bytes; on success
it parses 3-byte big-endian applet version, 2-byte features and 2-byte
securebox version. -/
theorem enable_spec (env : EnableEnv) :
    (∀ e, env.reset = .error e →
      Se050.enable env = (none, .error .UnknownError))
  ∧ (∀ atr, env.reset = .ok atr → (Se050.enable env).1 = some appSelectApdu)
  ∧ (∀ atr e, env.reset = .ok atr → env.send = .error e →
      (Se050.enable env).2 = .error .UnknownError)
  ∧ (∀ atr e, env.reset = .ok atr → env.send = .ok () → env.recv = .error e →
      (Se050.enable env).2 = .error .UnknownError)
  ∧ (∀ atr adata asw, env.reset = .ok atr → env.send = .ok () →
      env.recv = .ok (adata, asw) →
      ((asw ≠ 0x9000 ∨ adata.length ≠ 7) →
        (Se050.enable env).2 = .error .UnknownError)
      ∧ (asw = 0x9000 → adata.length = 7 →
        (Se050.enable env).2 = .ok ⟨beReadUint (adata.take 3),
          beReadUint ((adata.drop 3).take 2),
          beReadUint ((adata.drop 5).take 2)⟩)) := by
  refine ⟨?_, ?_, ?_, ?_, ?_⟩
  · intro e he
    simp [Se050.enable, he]
  · intro atr hr
    rcases hs : env.send with e | u
    · simp [Se050.enable, hr, hs]
    · rcases hrc : env.recv with e | ⟨adata, asw⟩
      · simp [Se050.enable, hr, hs, hrc]
      · by_cases hcond : asw ≠ 0x9000 ∨ adata.length ≠ 7
        · simp [Se050.enable, hr, hs, hrc, hcond]
        · simp [Se050.enable, hr, hs, hrc, hcond]
  · intro atr e hr hs
    simp [Se050.enable, hr, hs]
  · intro atr e hr hs hrc
    simp [Se050.enable, hr, hs, hrc]
  · intro atr adata asw hr hs hrc
    constructor
    · intro hbad
      simp [Se050.enable, hr, hs, hrc, hbad]
    · intro h1 h2
      have hcond : ¬ (asw ≠ 0x9000 ∨ adata.length ≠ 7) := by
        push_neg
        exact ⟨h1, h2⟩
      simp [Se050.enable, hr, hs, hrc, hcond]

/-- Witness for C8: a fully successful run over response data
`[1, 2, 3, 4, 5, 6, 7]` parses to version `0x010203`, features `0x0405`,
securebox `0x0607`. -/
theorem enable_spec_witness :
    (Se050.enable enableEnvExample).2 = .ok ⟨0x010203, 0x0405, 0x0607⟩ := by
  have h := ((enable_spec enableEnvExample).2.2.2.2 atrExample
    [1, 2, 3, 4, 5, 6, 7] 0x9000 rfl rfl rfl).2 rfl (by decide)
  exact h

/-- C9: decoding after encoding is the identity on every I-block PCB with
sequence bit in `{0, 1}` and on every S-block PCB, for each of the eight
S-codes and both request/response flags. -/
theorem i_s_block_roundtrip (seq : Nat) (multi : Bool) (code : T1SCode)
    (resp : Bool) (h : seq < 2) :
    T1PCB.fromByte (T1PCB.toByte (T1PCB.I seq multi)) = .ok (T1PCB.I seq multi)
    ∧ T1PCB.fromByte (T1PCB.toByte (T1PCB.S code resp))
        = .ok (T1PCB.S code resp) := by
  interval_cases seq <;> cases multi <;> cases code <;> cases resp <;> decide

/-- Witness for C9: the round-trip at `I(1, more)` and
`S(InterfaceSoftReset, response)`. -/
theorem i_s_block_roundtrip_witness :
    T1PCB.fromByte (T1PCB.toByte (T1PCB.I 1 true)) = .ok (T1PCB.I 1 true)
    ∧ T1PCB.fromByte (T1PCB.toByte (T1PCB.S .InterfaceSoftReset true))
        = .ok (T1PCB.S .InterfaceSoftReset true) :=
  i_s_block_roundtrip 1 true .InterfaceSoftReset true (by decide)

/-- C10: whenever a `generate_*_key` wrapper (any curve byte) returns `Ok`,
the object id is the hardcoded `[0xae, 0x51, 0xae, 0x51]`, regardless of
the TLVs in the card's response. -/
theorem generate_key_hardcoded_object_id (curve : Nat) (env : GenEnv)
    (oid : ObjectId) (h : generate_ec_key curve env = .ok oid) :
    oid = ⟨[0xAE, 0x51, 0xAE, 0x51]⟩ := by
  obtain ⟨s, r⟩ := env
  cases s with
  | error e => simp [generate_ec_key] at h
  | ok u =>
    cases r with
    | error e => simp [generate_ec_key] at h
    | ok p =>
      obtain ⟨tlvs, sw⟩ := p
      by_cases hsw : sw ≠ 0x9000
      · simp [generate_ec_key, hsw] at h
      · simp [generate_ec_key, hsw] at h
        exact h.symm

/-- Witness for C10: a successful run (status `0x9000`, empty TLV list)
returns the hardcoded object id. -/
theorem generate_key_hardcoded_object_id_witness :
    (⟨[0xAE, 0x51, 0xAE, 0x51]⟩ : ObjectId) = ⟨[0xAE, 0x51, 0xAE, 0x51]⟩ :=
  generate_key_hardcoded_object_id 0x03 ⟨.ok (), .ok ([], 0x9000)⟩
    ⟨[0xAE, 0x51, 0xAE, 0x51]⟩ (by rfl)
